import Mathlib

/-!
# Verification of the SiS Lua debug adapter (`src/debugger/luaDebugAdapter.ts`)

This file gives a shallow embedding of the adapter's core logic and proves
properties of it:

* the framed-message reader `DebuggeeConnection.onData` (`#<len>\n<body>` framing),
* the command-line tokenizer `splitCommandLine`,
* the debuggee-message classifier `onDebuggeeJsonText`,
* the session state machine (`startDebuggingSession`, `stopDebuggingSession`,
  `onDebuggeeSocket`, `launchTargetProcess` and the associated asynchronous
  continuations).

Bytes are modelled as `Nat` (buffers only ever hold values `< 256`; the one
place the code reinterprets bytes as text, `Buffer.toString('ascii')`, masks
the high bit, which we model as `% 128`).  JavaScript numbers are modelled as
exact integers (`Int`); this is faithful for all realistic buffer lengths.
Filesystem and OS facts consumed by the code (`fs.existsSync`,
`fs.statSync(...).isDirectory()`, PE-header sniffing, `process.platform`)
are supplied as oracle inputs, since they are environment reads, not logic.
-/

namespace LuaDebugAdapter

/-! ## Framed-message reader (`DebuggeeConnection`)

`onData` appends the incoming chunk to `this.buffer` and then repeatedly:
finds the first `\n`; decodes the bytes before it as ASCII; requires the
header to start with `#`; parses the rest with `Number.parseInt(_, 10)`;
requires a finite non-negative length; waits if the body is incomplete;
otherwise emits the body and drops the consumed frame from the buffer.
A violated check invokes the `onSocketClosed` callback and stops. -/

/-- Index of the first `\n` byte, i.e. `buffer.indexOf(0x0a)` (`none` for `-1`). -/
def firstNl : List Nat → Option Nat
  | [] => none
  | b :: rest => if b = 10 then some 0 else (firstNl rest).map (· + 1)

/-- Whitespace skipped by JS `Number.parseInt` (restricted to code points `< 128`,
which is all that can appear after `Buffer.toString('ascii')`). -/
def jsStrWhiteSpace (c : Nat) : Bool :=
  c = 9 || c = 10 || c = 11 || c = 12 || c = 13 || c = 32

def isDigitCode (c : Nat) : Bool := 48 ≤ c && c ≤ 57

def digitsToNat (ds : List Nat) : Nat := ds.foldl (fun acc c => acc * 10 + (c - 48)) 0

/-- The digit run at the front of `cs`; `none` when there is none (parseInt's NaN). -/
def parseUnsignedJS (cs : List Nat) : Option Nat :=
  let ds := cs.takeWhile isDigitCode
  if ds.isEmpty then none else some (digitsToNat ds)

/-- `Number.parseInt(s, 10)` on a list of ASCII character codes: skip leading
whitespace, optional single sign, then a non-empty digit run (trailing
characters ignored); `none` models `NaN`. -/
def parseIntJS (cs : List Nat) : Option Int :=
  let cs' := cs.dropWhile jsStrWhiteSpace
  match cs' with
  | 43 :: rest => (parseUnsignedJS rest).map (fun n => (n : Int))
  | 45 :: rest => (parseUnsignedJS rest).map (fun n => -(n : Int))
  | _ => (parseUnsignedJS cs').map (fun n => (n : Int))

/-- The declared body length of a header line (characters, ASCII-decoded,
excluding the `\n`): `some n` when the header passes both checks of `onData`
(`header.startsWith('#')`, and `Number.parseInt(header.slice(1), 10)` finite
and non-negative); `none` is the fatal-framing-error case. -/
def headerLen (header : List Nat) : Option Nat :=
  if header.head? = some 35 then
    match parseIntJS (header.drop 1) with
    | none => none
    | some z => if z < 0 then none else some z.toNat
  else none

/-- One iteration of the `while (true)` loop of `onData`. -/
inductive StepResult where
  | needMore
  | fatal
  | frame (body : List Nat) (rest : List Nat)
deriving DecidableEq

def readerStep (buf : List Nat) : StepResult :=
  match firstNl buf with
  | none => .needMore
  | some nl =>
    match headerLen ((buf.take nl).map (· % 128)) with
    | none => .fatal
    | some size =>
      if buf.length < nl + 1 + size then .needMore
      else .frame ((buf.drop (nl + 1)).take size) (buf.drop (nl + 1 + size))

theorem firstNl_lt_length {buf : List Nat} {nl : Nat} (h : firstNl buf = some nl) :
    nl < buf.length := by
  induction buf generalizing nl with
  | nil => simp [firstNl] at h
  | cons b rest ih =>
    by_cases hb : b = 10
    · simp [firstNl, hb] at h
      simp
      omega
    · simp [firstNl, hb] at h
      obtain ⟨m, hm, rfl⟩ := h
      have := ih hm
      simp
      omega

theorem readerStep_frame_lt {buf body rest : List Nat}
    (h : readerStep buf = .frame body rest) : rest.length < buf.length := by
  unfold readerStep at h
  split at h
  · exact absurd h (by simp)
  · split at h
    · exact absurd h (by simp)
    · split at h
      · exact absurd h (by simp)
      · injection h with h1 h2
        subst h2
        simp [List.length_drop]
        omega

set_option linter.unusedVariables false in
/-- Reassemble every complete frame at the front of `buf`: the `while (true)`
loop of `onData`.  Returns the emitted bodies in order, the buffer left behind
(`this.buffer` after the call), and whether the `onSocketClosed` callback was
invoked (fatal framing error). -/
def runReader (buf : List Nat) : List (List Nat) × List Nat × Bool :=
  match h : readerStep buf with
  | .needMore => ([], buf, false)
  | .fatal => ([], buf, true)
  | .frame body rest =>
    let r := runReader rest
    (body :: r.1, r.2.1, r.2.2)
termination_by buf.length
decreasing_by exact readerStep_frame_lt h

theorem runReader_needMore {buf : List Nat} (h : readerStep buf = .needMore) :
    runReader buf = ([], buf, false) := by
  unfold runReader
  rw [h]

theorem runReader_fatal {buf : List Nat} (h : readerStep buf = .fatal) :
    runReader buf = ([], buf, true) := by
  unfold runReader
  rw [h]

theorem runReader_frame {buf body rest : List Nat} (h : readerStep buf = .frame body rest) :
    runReader buf =
      (body :: (runReader rest).1, (runReader rest).2.1, (runReader rest).2.2) := by
  conv_lhs => unfold runReader
  rw [h]

theorem firstNl_append {buf : List Nat} {nl : Nat} (e : List Nat) (h : firstNl buf = some nl) :
    firstNl (buf ++ e) = some nl := by
  induction buf generalizing nl with
  | nil => simp [firstNl] at h
  | cons b rest ih =>
    by_cases hb : b = 10
    · simp [firstNl, hb] at h ⊢
      exact h
    · simp [firstNl, hb] at h ⊢
      obtain ⟨m, hm, hnl⟩ := h
      exact ⟨m, ih hm, hnl⟩

theorem readerStep_append_fatal {buf : List Nat} (e : List Nat) (h : readerStep buf = .fatal) :
    readerStep (buf ++ e) = .fatal := by
  unfold readerStep at h
  split at h
  · exact absurd h (by simp)
  rename_i nl hnl
  have hle : nl ≤ buf.length := le_of_lt (firstNl_lt_length hnl)
  have hnl' : firstNl (buf ++ e) = some nl := firstNl_append e hnl
  split at h
  · rename_i hhl
    simp only [readerStep, hnl', List.take_append_of_le_length hle, hhl]
  · rename_i size hhl
    split at h <;> exact absurd h (by simp)

theorem readerStep_append_frame {buf body rest : List Nat} (e : List Nat)
    (h : readerStep buf = .frame body rest) :
    readerStep (buf ++ e) = .frame body (rest ++ e) := by
  unfold readerStep at h
  split at h
  · exact absurd h (by simp)
  rename_i nl hnl
  have hlt := firstNl_lt_length hnl
  have hnl' : firstNl (buf ++ e) = some nl := firstNl_append e hnl
  split at h
  · exact absurd h (by simp)
  rename_i size hhl
  split at h
  · exact absurd h (by simp)
  rename_i hlen
  injection h with h1 h2
  subst h1
  subst h2
  have hle1 : nl ≤ buf.length := le_of_lt hlt
  have hle2 : nl + 1 + size ≤ buf.length := Nat.le_of_not_lt hlen
  have hle3 : nl + 1 ≤ buf.length := by omega
  have hlen' : ¬ (buf ++ e).length < nl + 1 + size := by
    simp only [List.length_append]
    omega
  simp only [readerStep, hnl', List.take_append_of_le_length hle1, hhl, if_neg hlen',
    List.drop_append_of_le_length hle3, List.drop_append_of_le_length hle2,
    List.take_append_of_le_length (by simp only [List.length_drop]; omega : size ≤ (buf.drop (nl + 1)).length)]

/-- Running the reader on `buf ++ e` factors through running it on `buf` first:
after a fatal error nothing more is consumed; otherwise the leftover plus `e`
is processed next. -/
theorem runReader_append (buf e : List Nat) :
    runReader (buf ++ e) =
      (if (runReader buf).2.2 then
        ((runReader buf).1, (runReader buf).2.1 ++ e, true)
      else
        ((runReader buf).1 ++ (runReader ((runReader buf).2.1 ++ e)).1,
         (runReader ((runReader buf).2.1 ++ e)).2.1,
         (runReader ((runReader buf).2.1 ++ e)).2.2)) := by
  induction buf using runReader.induct with
  | case1 buf h =>
    rw [runReader_needMore h]
    simp
  | case2 buf h =>
    rw [runReader_fatal h, runReader_fatal (readerStep_append_fatal e h)]
    simp
  | case3 buf body rest h ih =>
    rw [runReader_frame h, runReader_frame (readerStep_append_frame e h)]
    rw [ih]
    cases hc : (runReader rest).2.2 <;> simp [hc]

theorem runReader_append_closed (buf e : List Nat) (h : (runReader buf).2.2 = true) :
    runReader (buf ++ e) = ((runReader buf).1, (runReader buf).2.1 ++ e, true) := by
  rw [runReader_append buf e, if_pos h]

theorem runReader_append_open (buf e : List Nat) (h : (runReader buf).2.2 = false) :
    runReader (buf ++ e) =
      ((runReader buf).1 ++ (runReader ((runReader buf).2.1 ++ e)).1,
       (runReader ((runReader buf).2.1 ++ e)).2.1,
       (runReader ((runReader buf).2.1 ++ e)).2.2) := by
  rw [runReader_append buf e, if_neg (by simp [h])]

/-- A buffer left behind by a non-fatal `onData` call is quiescent: it holds
no complete frame. -/
theorem runReader_leftover {buf : List Nat} (h : (runReader buf).2.2 = false) :
    readerStep (runReader buf).2.1 = .needMore := by
  induction buf using runReader.induct with
  | case1 buf h' =>
    rw [runReader_needMore h'] at h ⊢
    exact h'
  | case2 buf h' =>
    rw [runReader_fatal h'] at h
    simp at h
  | case3 buf body rest h' ih =>
    rw [runReader_frame h'] at h ⊢
    exact ih h

/-! ## Connection-level events

The `DebuggeeConnection` constructor (lines 293-301) wires `data` to
`onData` and both `close` and `error` to the `onSocketClosed` callback.  It
never removes these handlers, keeps no flag, and does not destroy the socket
on a fatal framing error, so nothing in the connection suppresses later
events: a socket `error` followed by the `close` event Node emits afterwards
invokes the callback twice, and a `data` event arriving after a fatal
framing error re-runs the loop on the unchanged bad header and invokes the
callback again.  `closedCount` counts the invocations of the `onSocketClosed`
callback. -/

structure RState where
  buffer : List Nat
  closedCount : Nat
deriving DecidableEq

def initialRState : RState := ⟨[], 0⟩

/-- One `data` event: `onData(chunk)`. -/
def onDataCall (st : RState) (chunk : List Nat) : RState × List (List Nat) :=
  let r := runReader (st.buffer ++ chunk)
  (⟨r.2.1, st.closedCount + (if r.2.2 then 1 else 0)⟩, r.1)

inductive ConnInput where
  | data (chunk : List Nat)
  | socketClose
  | socketError
deriving DecidableEq

def connStep (st : RState) : ConnInput → RState × List (List Nat)
  | .data c => onDataCall st c
  | .socketClose => (⟨st.buffer, st.closedCount + 1⟩, [])
  | .socketError => (⟨st.buffer, st.closedCount + 1⟩, [])

def runConn (st : RState) : List ConnInput → RState × List (List Nat)
  | [] => (st, [])
  | i :: is =>
    let r1 := connStep st i
    let r2 := runConn r1.1 is
    (r2.1, r1.2 ++ r2.2)

theorem runConn_cons (st : RState) (i : ConnInput) (is : List ConnInput) :
    runConn st (i :: is) =
      ((runConn (connStep st i).1 is).1,
       (connStep st i).2 ++ (runConn (connStep st i).1 is).2) := rfl

theorem connStep_data {buf : List Nat} {k : Nat} (c : List Nat) :
    connStep ⟨buf, k⟩ (ConnInput.data c) =
      (⟨(runReader (buf ++ c)).2.1,
        k + (if (runReader (buf ++ c)).2.2 then 1 else 0)⟩,
       (runReader (buf ++ c)).1) := rfl

/-- The buffer left behind by a data event that signalled closed still has
its complete bad header line at the front. -/
theorem runReader_leftover_fatal {buf : List Nat} (h : (runReader buf).2.2 = true) :
    readerStep (runReader buf).2.1 = .fatal := by
  induction buf using runReader.induct with
  | case1 buf h' =>
    rw [runReader_needMore h'] at h
    simp at h
  | case2 buf h' =>
    rw [runReader_fatal h'] at h ⊢
    exact h'
  | case3 buf body rest h' ih =>
    rw [runReader_frame h'] at h ⊢
    exact ih h

/-- Data events on a buffer whose front is a fatal header emit nothing and
consume nothing; each one re-detects the error and invokes the closed
callback once more, the buffer only accumulating. -/
theorem runConn_data_fatal (cs : List (List Nat)) (buf : List Nat) (k : Nat)
    (h : readerStep buf = .fatal) :
    runConn ⟨buf, k⟩ (cs.map ConnInput.data)
      = (⟨buf ++ cs.flatten, k + cs.length⟩, []) := by
  induction cs generalizing buf k with
  | nil => simp [runConn]
  | cons c cs ih =>
    rw [List.map_cons, runConn_cons, connStep_data]
    have hr : runReader (buf ++ c) = ([], buf ++ c, true) :=
      runReader_fatal (readerStep_append_fatal c h)
    rw [hr]
    rw [ih (buf ++ c) _ (readerStep_append_fatal c h)]
    simp only [List.flatten_cons, List.length_cons, ← List.append_assoc, List.append_nil]
    have hone : (if True then 1 else 0) = 1 := if_pos trivial
    rw [hone, show k + 1 + cs.length = k + (cs.length + 1) from by omega]

theorem runConn_data_messages (chunks : List (List Nat)) (buf : List Nat) (k : Nat)
    (hq : readerStep buf = .needMore) :
    (runConn ⟨buf, k⟩ (chunks.map ConnInput.data)).2
      = (runReader (buf ++ chunks.flatten)).1 := by
  induction chunks generalizing buf k with
  | nil =>
    simp [runConn, runReader_needMore hq]
  | cons c cs ih =>
    rw [List.map_cons, runConn_cons, connStep_data]
    cases hc : (runReader (buf ++ c)).2.2 with
    | true =>
      rw [runConn_data_fatal cs _ _ (runReader_leftover_fatal hc)]
      simp only [List.flatten_cons, ← List.append_assoc,
        runReader_append_closed (buf ++ c) cs.flatten hc]
      simp
    | false =>
      have hq' : readerStep (runReader (buf ++ c)).2.1 = .needMore := runReader_leftover hc
      show (runReader (buf ++ c)).1
          ++ (runConn ⟨(runReader (buf ++ c)).2.1, _⟩ (cs.map ConnInput.data)).2
          = _
      rw [ih _ _ hq']
      simp only [List.flatten_cons, ← List.append_assoc,
        runReader_append_open (buf ++ c) cs.flatten hc]

/-- C1: chunking invariance of the framed-message reader.  Delivering any
list of chunks one `data` event at a time emits the same ordered sequence of
message bodies as delivering their concatenation in a single `data` event. -/
theorem onData_chunking_invariant (chunks : List (List Nat)) :
    (runConn initialRState (chunks.map ConnInput.data)).2
      = (runConn initialRState [ConnInput.data chunks.flatten]).2 := by
  rw [show initialRState = ⟨[], 0⟩ from rfl]
  rw [runConn_data_messages chunks [] 0 rfl]
  rw [show [ConnInput.data chunks.flatten] = [chunks.flatten].map ConnInput.data from rfl]
  rw [runConn_data_messages [chunks.flatten] [] 0 rfl]
  simp

/-- C2 counterexample: the closed callback does not fire exactly once, and
the reader does not stop reading by itself.  From a fresh connection, a
socket error followed by the close event Node always emits afterwards
invokes the callback twice; likewise a further data event after a fatal
header (`"X\n"`) re-detects the unchanged error and signals a second time. -/
theorem closed_signal_not_exactly_once :
    (runConn initialRState [ConnInput.socketError, ConnInput.socketClose]).1.closedCount = 2
    ∧ (runConn initialRState
        [ConnInput.data [88, 10], ConnInput.data [89]]).1.closedCount = 2 := by
  constructor
  · rfl
  · have h1 : runReader (([] : List Nat) ++ [88, 10]) = ([], [] ++ [88, 10], true) :=
      runReader_fatal (by decide)
    have h2 : runReader ((([] : List Nat) ++ [88, 10]) ++ [89])
        = ([], ([] ++ [88, 10]) ++ [89], true) :=
      runReader_fatal (by decide)
    rw [show initialRState = ⟨[], 0⟩ from rfl]
    simp only [runConn, connStep, onDataCall, h1, h2]
    rfl

/-- C2 (amended): a fatal framing error — a complete header line not
starting with `#`, or a non-numeric or negative declared length — makes the
reader invoke the closed callback, emit nothing, and consume nothing.  The
connection does not silence itself afterwards: every further data event
re-detects the same error, emits nothing, and invokes the callback once more
(the buffer only accumulating), and a socket error followed by the socket
close event invokes the callback once each.  Stopping is the session side's
reaction to the first signal, not the reader's own doing. -/
theorem framing_error_behavior :
    (∀ (buf : List Nat) (nl : Nat), firstNl buf = some nl →
        (((buf.take nl).map (· % 128)).head? ≠ some 35
          ∨ parseIntJS (((buf.take nl).map (· % 128)).drop 1) = none
          ∨ ∃ z : Int, parseIntJS (((buf.take nl).map (· % 128)).drop 1) = some z ∧ z < 0) →
        runReader buf = ([], buf, true))
    ∧ (∀ (buf : List Nat) (k : Nat) (cs : List (List Nat)), readerStep buf = .fatal →
        runConn ⟨buf, k⟩ (cs.map ConnInput.data)
          = (⟨buf ++ cs.flatten, k + cs.length⟩, []))
    ∧ (∀ st : RState,
        (runConn st [ConnInput.socketError, ConnInput.socketClose]).1.closedCount
          = st.closedCount + 2) := by
  refine ⟨fun buf nl hnl hbad => ?_, fun buf k cs h => runConn_data_fatal cs buf k h,
    fun st => rfl⟩
  apply runReader_fatal
  have hnone : headerLen ((buf.take nl).map (· % 128)) = none := by
    unfold headerLen
    by_cases hh : ((buf.take nl).map (· % 128)).head? = some 35
    · rw [if_pos hh]
      rcases hbad with h | h | ⟨z, hz, hzneg⟩
      · exact absurd hh h
      · rw [h]
      · rw [hz]
        exact if_pos hzneg
    · rw [if_neg hh]
  unfold readerStep
  simp only [hnl, hnone]

/-- Witness for C2 (amended): the stream `"X\n"` (header line `X`, no leading
`#`) is a fatal framing error — nothing emitted, nothing consumed, closed
signalled — and a further data event on that buffer emits nothing and
signals once more. -/
theorem framing_error_behavior_witness :
    firstNl [88, 10] = some 1
    ∧ (((List.take 1 [88, 10]).map (· % 128)).head? ≠ some 35
        ∨ parseIntJS (((List.take 1 [88, 10]).map (· % 128)).drop 1) = none
        ∨ ∃ z : Int, parseIntJS (((List.take 1 [88, 10]).map (· % 128)).drop 1) = some z ∧ z < 0)
    ∧ runReader [88, 10] = ([], [88, 10], true)
    ∧ readerStep [88, 10] = .fatal
    ∧ runConn ⟨[88, 10], 1⟩ ([[89]].map ConnInput.data)
        = (⟨[88, 10] ++ [[89]].flatten, 1 + [[89]].length⟩, []) :=
  ⟨by decide, Or.inl (by decide),
    framing_error_behavior.1 [88, 10] 1 (by decide) (Or.inl (by decide)),
    by decide,
    framing_error_behavior.2.1 [88, 10] 1 [[89]] (by decide)⟩

/-! ## `splitCommandLine`

The source walks the string with an index `i` and a boolean `inQuotes` flag:
a `"` while in quotes followed by another `"` appends a literal quote and
skips both; any other `"` toggles the flag; whitespace outside quotes ends
the current token (pushed only when non-empty); any other character is
appended; a final non-empty token is pushed after the loop. -/

/-- A character matched by the JS regex `\s` (used via `/\s/.test(ch)`). -/
def jsWhitespaceChar (c : Char) : Bool :=
  let n := c.toNat
  n = 32 || (9 ≤ n && n ≤ 13) || n = 160 || n = 5760 || (8192 ≤ n && n ≤ 8202)
    || n = 8232 || n = 8233 || n = 8239 || n = 8287 || n = 12288 || n = 65279

/-- The loop of `splitCommandLine`: remaining input, `current`, `inQuotes`.
The source's if-chain is rendered as ordered patterns: a `"` while in quotes
with another `"` right behind it appends a literal quote and skips both
(`i++`); any other `"` toggles the flag; then whitespace outside quotes ends
the current token (pushed only when non-empty); any other character is
appended to `current`. -/
def splitGo : List Char → List Char → Bool → List (List Char)
  | [], current, _ => if current.isEmpty then [] else [current]
  | '"' :: '"' :: rest, current, true => splitGo rest (current ++ ['"']) true
  | '"' :: rest, current, true => splitGo rest current false
  | '"' :: rest, current, false => splitGo rest current true
  | ch :: rest, current, inQuotes =>
    if !inQuotes && jsWhitespaceChar ch then
      if current.isEmpty then splitGo rest [] inQuotes
      else current :: splitGo rest [] inQuotes
    else splitGo rest (current ++ [ch]) inQuotes

def splitCommandLine (commandLine : List Char) : List (List Char) :=
  splitGo commandLine [] false

/-! Specification-side tokenizer, written after the words of the spec:
tokens are separated by runs of whitespace occurring outside double quotes; a
`"` opens a quoted span; inside a span `""` contributes one literal quote and
a single `"` closes the span; a span left open at the end of the input is
treated as closed there. -/

mutual

def specOutsideQuotes (cur : List Char) : List Char → List (List Char)
  | [] => if cur.isEmpty then [] else [cur]
  | '"' :: rest => specInsideQuotes cur rest
  | c :: rest =>
    if jsWhitespaceChar c then
      (if cur.isEmpty then specOutsideQuotes [] rest else cur :: specOutsideQuotes [] rest)
    else specOutsideQuotes (cur ++ [c]) rest

def specInsideQuotes (cur : List Char) : List Char → List (List Char)
  | [] => if cur.isEmpty then [] else [cur]
  | '"' :: '"' :: rest => specInsideQuotes (cur ++ ['"']) rest
  | '"' :: rest => specOutsideQuotes cur rest
  | c :: rest => specInsideQuotes (cur ++ [c]) rest

end

def specTokenize (commandLine : List Char) : List (List Char) :=
  specOutsideQuotes [] commandLine

theorem splitGo_spec (rest cur : List Char) (inQuotes : Bool) :
    splitGo rest cur inQuotes =
      (if inQuotes then specInsideQuotes cur rest else specOutsideQuotes cur rest) := by
  induction rest, cur, inQuotes using splitGo.induct <;>
    first
    | (simp_all [splitGo, specInsideQuotes, specOutsideQuotes]; done)
    | (rename_i ch rest current inQ h1 h2 h3 hws ih
       cases inQ <;> simp_all [splitGo, specInsideQuotes, specOutsideQuotes])

/-- C9: `splitCommandLine` agrees with the spec-side tokenizer (whitespace
splits outside double quotes, `""` inside a span is a literal quote, an
unmatched trailing quote is treated as closed at end of input). -/
theorem splitCommandLine_correct (commandLine : List Char) :
    splitCommandLine commandLine = specTokenize commandLine := by
  rw [splitCommandLine, specTokenize, splitGo_spec]
  simp

/-! ## JSON values and `JSON.stringify`

A small model of parsed JSON values, used for the messages the adapter
exchanges with the debuggee.  Objects are association lists in insertion
order (duplicate keys are already resolved by `JSON.parse`, so lookups take
the first binding). -/

inductive Json where
  | null
  | bool (b : Bool)
  | num (n : Int)
  | str (s : String)
  | arr (items : List Json)
  | obj (fields : List (String × Json))

/-- Property access `j.f` on a parsed value: `none` models `undefined`
(also for non-object values, matching `msg?.f`). -/
def getField (j : Json) (key : String) : Option Json :=
  match j with
  | .obj fields => fields.lookup key
  | _ => none

/-- `JSON.stringify` escaping of one character inside a string literal. -/
def jsonEscapeChar (c : Char) : String :=
  if c = '"' then "\\\""
  else if c = '\\' then "\\\\"
  else if c = '\x08' then "\\b"
  else if c = '\t' then "\\t"
  else if c = '\n' then "\\n"
  else if c = '\x0c' then "\\f"
  else if c = '\r' then "\\r"
  else if c.toNat < 32 then
    "\\u00" ++ String.mk [Nat.digitChar (c.toNat / 16), Nat.digitChar (c.toNat % 16)]
  else String.singleton c

/-- `JSON.stringify` of a string value. -/
def jsonQuote (s : String) : String :=
  "\"" ++ String.join (s.data.map jsonEscapeChar) ++ "\""

/-! ## Debuggee-message classification (`onDebuggeeJsonText`)

`onDebuggeeJsonText` parses the body text; on a parse error it reports the
raw text as stderr output.  A parsed message with `type === 'event'` and a
string `event` is forwarded as an event — unless it is the reserved
`sis_adapter_internal` event *and* carries a truthy `body` of type `object`,
in which case it is swallowed.  A parsed message with `type === 'response'`
and a string `command` is re-sent as a response.  Anything else is reported
as unhandled output. -/

/-- `msg?.f === 'lit'` for a string literal. -/
def fieldIsStr (j : Json) (key lit : String) : Bool :=
  match getField j key with
  | some (.str s) => s = lit
  | _ => false

/-- `typeof msg.f === 'string'`, returning the string. -/
def strField (j : Json) (key : String) : Option String :=
  match getField j key with
  | some (.str s) => some s
  | _ => none

/-- `msg?.body && typeof msg.body === 'object'`: a truthy value of JS type
`object`, i.e. a (non-null) object or array. -/
def bodyIsTruthyObject (j : Json) : Bool :=
  match getField j "body" with
  | some (.obj _) => true
  | some (.arr _) => true
  | _ => false

inductive DbgAction where
  | forwardEvent (name : String) (body : Option Json)
  | forwardResponse (msg : Json)
  | swallow
  | outputInvalid
  | outputUnhandled

/-- The classification performed by `onDebuggeeJsonText`; the argument is the
result of `JSON.parse` (`none` = the parse threw). -/
def onDebuggeeJsonText : Option Json → DbgAction
  | none => .outputInvalid
  | some msg =>
    match (if fieldIsStr msg "type" "event" then strField msg "event" else none) with
    | some name =>
      if name = "sis_adapter_internal" && bodyIsTruthyObject msg then .swallow
      else .forwardEvent name (getField msg "body")
    | none =>
      match (if fieldIsStr msg "type" "response" then strField msg "command" else none) with
      | some _ => .forwardResponse msg
      | none => .outputUnhandled

/-- An event message named `sis_adapter_internal` carrying no `body`. -/
def internalEventNoBody : Json :=
  .obj [("type", .str "event"), ("event", .str "sis_adapter_internal")]

/-- C8 counterexample: a parsed `sis_adapter_internal` event without an
object body is forwarded to the IDE, not swallowed — refuting the claim that
events of that name are never forwarded. -/
theorem internal_event_forwarded :
    onDebuggeeJsonText (some internalEventNoBody)
      = .forwardEvent "sis_adapter_internal" none
    ∧ onDebuggeeJsonText (some internalEventNoBody) ≠ .swallow := by
  constructor
  · rfl
  · intro h
    rw [show onDebuggeeJsonText (some internalEventNoBody)
        = .forwardEvent "sis_adapter_internal" none from rfl] at h
    exact DbgAction.noConfusion h

/-- C8 (amended): classification of parsed debuggee messages.  An event with
a string name is forwarded with the same name and body, except a
`sis_adapter_internal` event whose `body` is a truthy object, which is
swallowed; a response with a string command is forwarded as a response; every
other parse result is reported as output. -/
theorem onDebuggeeJsonText_classification :
    (∀ (msg : Json) (name : String),
      fieldIsStr msg "type" "event" = true → strField msg "event" = some name →
      ¬(name = "sis_adapter_internal" ∧ bodyIsTruthyObject msg = true) →
      onDebuggeeJsonText (some msg) = .forwardEvent name (getField msg "body"))
    ∧ (∀ msg : Json,
      fieldIsStr msg "type" "event" = true →
      strField msg "event" = some "sis_adapter_internal" →
      bodyIsTruthyObject msg = true →
      onDebuggeeJsonText (some msg) = .swallow)
    ∧ (∀ (msg : Json) (cmd : String),
      ¬(fieldIsStr msg "type" "event" = true ∧ (strField msg "event").isSome) →
      fieldIsStr msg "type" "response" = true → strField msg "command" = some cmd →
      onDebuggeeJsonText (some msg) = .forwardResponse msg)
    ∧ (∀ msg : Json,
      ¬(fieldIsStr msg "type" "event" = true ∧ (strField msg "event").isSome) →
      ¬(fieldIsStr msg "type" "response" = true ∧ (strField msg "command").isSome) →
      onDebuggeeJsonText (some msg) = .outputUnhandled)
    ∧ onDebuggeeJsonText none = .outputInvalid := by
  refine ⟨?_, ?_, ?_, ?_, rfl⟩
  · intro msg name ht he hnot
    simp [onDebuggeeJsonText, ht, he]
    intro h1
    cases hb : bodyIsTruthyObject msg with
    | false => rfl
    | true => exact absurd ⟨h1, hb⟩ hnot
  · intro msg ht he hb
    simp [onDebuggeeJsonText, ht, he, hb]
  · intro msg cmd hne ht hc
    have hev : (if fieldIsStr msg "type" "event" then strField msg "event" else none) = none := by
      by_cases h : fieldIsStr msg "type" "event" = true
      · rw [if_pos h]
        cases he : strField msg "event" with
        | none => rfl
        | some s => exact absurd ⟨h, by simp [he]⟩ hne
      · rw [if_neg h]
    simp [onDebuggeeJsonText, hev, ht, hc]
  · intro msg hne hnr
    have hev : (if fieldIsStr msg "type" "event" then strField msg "event" else none) = none := by
      by_cases h : fieldIsStr msg "type" "event" = true
      · rw [if_pos h]
        cases he : strField msg "event" with
        | none => rfl
        | some s => exact absurd ⟨h, by simp [he]⟩ hne
      · rw [if_neg h]
    have hrv : (if fieldIsStr msg "type" "response" then strField msg "command" else none) = none := by
      by_cases h : fieldIsStr msg "type" "response" = true
      · rw [if_pos h]
        cases hc : strField msg "command" with
        | none => rfl
        | some s => exact absurd ⟨h, by simp [hc]⟩ hnr
      · rw [if_neg h]
    simp [onDebuggeeJsonText, hev, hrv]

/-- Witness for C8 (amended): an ordinary event is forwarded, an internal
event with an object body is swallowed, a response is forwarded, a plain
string message is unhandled. -/
theorem onDebuggeeJsonText_classification_witness :
    (fieldIsStr (.obj [("type", .str "event"), ("event", .str "stopped")]) "type" "event" = true
      ∧ strField (.obj [("type", .str "event"), ("event", .str "stopped")]) "event" = some "stopped"
      ∧ onDebuggeeJsonText (some (.obj [("type", .str "event"), ("event", .str "stopped")]))
          = .forwardEvent "stopped" none)
    ∧ (bodyIsTruthyObject (.obj [("type", .str "event"),
          ("event", .str "sis_adapter_internal"), ("body", .obj [])]) = true
      ∧ onDebuggeeJsonText (some (.obj [("type", .str "event"),
          ("event", .str "sis_adapter_internal"), ("body", .obj [])])) = .swallow) := by
  refine ⟨⟨by decide, by decide, ?_⟩, ⟨by decide, ?_⟩⟩
  · exact onDebuggeeJsonText_classification.1
      (.obj [("type", .str "event"), ("event", .str "stopped")]) "stopped"
      (by decide) (by decide) (by simp)
  · exact onDebuggeeJsonText_classification.2.1
      (.obj [("type", .str "event"), ("event", .str "sis_adapter_internal"), ("body", .obj [])])
      (by decide) (by decide) (by decide)

/-! ## `JSON.stringify` -/

mutual

def jsonStringify : Json → String
  | .null => "null"
  | .bool true => "true"
  | .bool false => "false"
  | .num n => toString n
  | .str s => jsonQuote s
  | .arr items => "[" ++ stringifyItems items ++ "]"
  | .obj fields => "\x7b" ++ stringifyFields fields ++ "\x7d"

def stringifyItems : List Json → String
  | [] => ""
  | [j] => jsonStringify j
  | j :: rest => jsonStringify j ++ "," ++ stringifyItems rest

def stringifyFields : List (String × Json) → String
  | [] => ""
  | [(k, v)] => jsonQuote k ++ ":" ++ jsonStringify v
  | (k, v) :: rest => jsonQuote k ++ ":" ++ jsonStringify v ++ "," ++ stringifyFields rest

end

/-! ## Session state machine (`SisLuaDebugAdapterSession`)

The class's mutable fields become a state record; the observable actions
(sending responses/events to the IDE, writing to the debuggee socket,
killing processes, scheduling timers) become an ordered effect trace.
`net`/`fs`/child-process handles are reduced to the facts the logic
consumes: whether a listener/connection/child exists and the recorded pids
and paths.  Asynchronous continuations (the code after `await
this.openListener`, the `runInTerminal` confirmation callback, the stop
grace timer, `setImmediate` teardown) are separate functions invoked by the
event loop, which is how the single-threaded callback scheduling works. -/

inductive Platform where
  | win32
  | posix
deriving DecidableEq

def pathSep : Platform → String
  | .win32 => "\\"
  | .posix => "/"

inductive StartKind where
  | launch
  | attach
deriving DecidableEq

inductive TermKind where
  | integrated
  | external
deriving DecidableEq

structure SessionState where
  debuggee : Bool
  listener : Bool
  pendingStartResponse : Option Nat
  pendingStartRequest : Option Nat
  sessionToken : Nat
  stopping : Bool
  activeKind : Option StartKind
  customRequestSeq : Nat
  workingDirectory : String
  sourceBasePath : String
  listenHost : String
  listenPort : Nat
  launchedChild : Option Nat
  launchedExecutableFullPath : Option String
  launchedTerminalKind : Option TermKind
  launchedProcessId : Option Nat
  launchedShellProcessId : Option Nat
  clientSupportsRunInTerminalRequest : Bool
deriving DecidableEq

/-- Field initializers of `SisLuaDebugAdapterSession`. -/
def initialSessionState : SessionState where
  debuggee := false
  listener := false
  pendingStartResponse := none
  pendingStartRequest := none
  sessionToken := 0
  stopping := false
  activeKind := none
  customRequestSeq := 1
  workingDirectory := ""
  sourceBasePath := ""
  listenHost := "127.0.0.1"
  listenPort := 0
  launchedChild := none
  launchedExecutableFullPath := none
  launchedTerminalKind := none
  launchedProcessId := none
  launchedShellProcessId := none
  clientSupportsRunInTerminalRequest := false

/-- Observable actions, in program order. -/
inductive Eff where
  | response (reqId : Nat) (success : Bool) (message : Option String)
  | evTerminated
  | evInitialized
  | evOutput (category : String) (text : String)
  | destroyIncomingSocket
  | destroyDebuggeeSocket
  | setNoDelay
  | listenerClose
  | wireWrite (s : String)
  | spawnChild (exe : String) (args : List String)
  | runInTerminal (kind : TermKind) (args : List String)
  | killChildHandle
  | killTreeByPid (pid : Nat)
  | killByImage (image : String)
  | killDescendantsOf (rootPid : Nat)
  | scheduleGraceTimer (token : Nat)
  | scheduleImmediateTeardown
  | shutdownEff
deriving DecidableEq

/-- `sendRawJsonText`: header write then body write (`Buffer.byteLength` of
the UTF-8 encoding). -/
def frameWrites (jsonText : String) : List Eff :=
  [.wireWrite ("#" ++ toString jsonText.utf8ByteSize ++ "\n"), .wireWrite jsonText]

/-- JS `String.prototype.trim` (strips the same whitespace class as `\s`).
Implemented over the character list so that it evaluates by reduction. -/
def jsTrim (s : String) : String :=
  String.mk (((s.data.dropWhile jsWhitespaceChar).reverse.dropWhile jsWhitespaceChar).reverse)

/-- `isNonEmptyString` (the `typeof` check is carried by the model's types). -/
def isNonEmptyString (s : String) : Bool := jsTrim s ≠ ""

/-- `path.basename` (win32 flavor, as used on the Windows-only kill paths):
the last non-empty path component.  (Degenerate all-separator inputs are not
reachable from resolved executable paths.) -/
def splitOnPathSeparators : List Char → List (List Char)
  | [] => [[]]
  | c :: rest =>
    let r := splitOnPathSeparators rest
    if c = '/' || c = '\\' then [] :: r
    else
      match r with
      | [] => [[c]]
      | h :: t => (c :: h) :: t

def win32Basename (s : String) : String :=
  match (splitOnPathSeparators s.data).reverse.find? (fun p => !p.isEmpty) with
  | some p => String.mk p
  | none => ""

def closeDebuggee (st : SessionState) : SessionState × List Eff :=
  match st.debuggee with
  | false => (st, [])
  | true => ({st with debuggee := false}, [.destroyDebuggeeSocket])

def closeListener (st : SessionState) : SessionState × List Eff :=
  match st.listener with
  | false => (st, [])
  | true => ({st with listener := false}, [.listenerClose])

/-- JS `Set` iteration order: insertion order, duplicates skipped. -/
def dedupPidsAux (seen : List Nat) : List Nat → List Nat
  | [] => []
  | p :: ps => if p ∈ seen then dedupPidsAux seen ps else p :: dedupPidsAux (p :: seen) ps

def dedupPids (pids : List Nat) : List Nat := dedupPidsAux [] pids

def optPidList : Option Nat → List Nat
  | some p => [p]
  | none => []

def killLaunchedProcesses (st : SessionState) : SessionState × List Eff :=
  let childPids := optPidList st.launchedChild
  let childEffs : List Eff :=
    match st.launchedChild with
    | some _ => [.killChildHandle]
    | none => []
  let termPids :=
    match st.launchedTerminalKind with
    | some .external => optPidList st.launchedProcessId ++ optPidList st.launchedShellProcessId
    | _ => []
  let pids := dedupPids (childPids ++ termPids)
  ({st with launchedChild := none, launchedProcessId := none, launchedShellProcessId := none,
            launchedTerminalKind := none, launchedExecutableFullPath := none},
   childEffs ++ pids.map Eff.killTreeByPid)

def sisExitRequest (seq : Nat) : Json :=
  .obj [("seq", .num seq), ("type", .str "request"), ("command", .str "sis_exit"),
        ("arguments", .obj [])]

def requestDebuggeeExitBestEffort (st : SessionState) : SessionState × List Eff :=
  match st.debuggee with
  | false => (st, [])
  | true =>
    ({st with customRequestSeq := st.customRequestSeq + 1},
     frameWrites (jsonStringify (sisExitRequest st.customRequestSeq)))

/-- `stopDebuggingSession` (lines 440-504): acknowledge a still-pending start
request as a clean success, acknowledge the stop request itself, and — unless
a stop is already in progress — mark the session stopping, bump the token,
emit `terminated`, and either ask a connected launched debuggee to exit
cooperatively (scheduling the grace timer) or schedule immediate teardown
(with a best-effort image kill for stop-before-connect launches on Windows). -/
def stopDebuggingSession (plat : Platform) (respId : Nat) (st : SessionState) :
    SessionState × List Eff :=
  let ack :=
    match st.pendingStartResponse with
    | some p =>
      ({st with pendingStartResponse := none, pendingStartRequest := none},
       [Eff.response p true none])
    | none => (st, ([] : List Eff))
  let st1 := ack.1
  let ackEffs := ack.2 ++ [Eff.response respId true none]
  match st1.stopping with
  | true => (st1, ackEffs)
  | false =>
    let st2 := {st1 with stopping := true, sessionToken := st1.sessionToken + 1}
    let effs := ackEffs ++ [Eff.evTerminated]
    let stopToken := st2.sessionToken
    match st2.activeKind, st2.debuggee with
    | some .launch, true =>
      let r := requestDebuggeeExitBestEffort st2
      (r.1, effs ++ r.2 ++ [Eff.scheduleGraceTimer stopToken])
    | _, _ =>
      let imageEffs :=
        match st2.activeKind, plat, st2.launchedExecutableFullPath with
        | some .launch, .win32, some p => [Eff.killByImage (win32Basename p)]
        | _, _, _ => []
      (st2, effs ++ imageEffs ++ [Eff.scheduleImmediateTeardown])

/-- The grace-period timer continuation scheduled by `stopDebuggingSession`
(lines 471-488), with the `stopToken` it captured. -/
def graceTimerFired (plat : Platform) (stopToken : Nat) (st : SessionState) :
    SessionState × List Eff :=
  if stopToken ≠ st.sessionToken then (st, [])
  else
    let winEffs :=
      match plat with
      | .win32 =>
        match st.launchedTerminalKind, st.launchedShellProcessId with
        | some .integrated, some sp => [Eff.killDescendantsOf sp]
        | _, _ =>
          match st.launchedExecutableFullPath with
          | some p => [Eff.killByImage (win32Basename p)]
          | none => []
      | .posix => []
    let k := killLaunchedProcesses st
    let c1 := closeListener k.1
    let c2 := closeDebuggee c1.1
    (c2.1, winEffs ++ k.2 ++ c1.2 ++ c2.2 ++ [Eff.shutdownEff])

/-- The `setImmediate` teardown continuation (lines 498-503). -/
def immediateTeardown (st : SessionState) : SessionState × List Eff :=
  let k := killLaunchedProcesses st
  let c1 := closeListener k.1
  let c2 := closeDebuggee c1.1
  (c2.1, k.2 ++ c1.2 ++ c2.2 ++ [Eff.shutdownEff])

/-- The `welcome` greeting (lines 749-753), field order and spelling as in
the object literal. -/
def welcomeMessage (sourceBasePath sep : String) : Json :=
  .obj [("command", .str "welcome"), ("sourceBasePath", .str sourceBasePath),
        ("directorySeperator", .str sep)]

/-- `onDebuggeeSocket` (lines 734-761). -/
def onDebuggeeSocket (plat : Platform) (st : SessionState) : SessionState × List Eff :=
  match st.debuggee with
  | true => (st, [Eff.destroyIncomingSocket])
  | false =>
    let c := closeListener st
    let st2 := {c.1 with debuggee := true}
    let wEffs := frameWrites (jsonStringify (welcomeMessage st2.sourceBasePath (pathSep plat)))
    match st2.pendingStartResponse with
    | some p =>
      ({st2 with pendingStartResponse := none, pendingStartRequest := none},
       [Eff.setNoDelay] ++ c.2 ++ wEffs ++ [Eff.response p true none, Eff.evInitialized])
    | none => (st2, [Eff.setNoDelay] ++ c.2 ++ wEffs)

/-- `onDebuggeeDisconnected` (lines 790-798). -/
def onDebuggeeDisconnected (st : SessionState) : SessionState × List Eff :=
  let st1 := {st with debuggee := false}
  match st1.stopping with
  | true => (st1, [Eff.shutdownEff])
  | false => (st1, [Eff.evTerminated, Eff.shutdownEff])

/-! ### Start sequence -/

inductive ArgSpec where
  | strs (ls : List String)
  | str (s : String)
  | absent
deriving DecidableEq

/-- The launch/attach configuration, with environment reads (filesystem
checks, executable resolution, PE-header sniffing) supplied as oracles. -/
structure LaunchConfig where
  workingDirectory : String
  /-- Oracle for `fs.statSync(workingDirectory).isDirectory()`; `false` also
  models a `statSync` throw. -/
  workingDirectoryIsDirectory : Bool
  sourceBasePath : Option String
  listenPublicly : Bool
  /-- Oracle: result of `Number.parseInt(String(cfg.listenPort ?? ''), 10)`. -/
  listenPortParsed : Option Int
  executable : String
  /-- Oracle for `resolveExecutable(executable, workingDirectory)`
  (candidate enumeration plus `fs.existsSync`). -/
  fsResolvedExecutable : Option String
  arguments : ArgSpec
  env : Option (List (String × String))
  console : Option String
  /-- Oracle for `shouldWrapRunInTerminalWithCmd(fullExe)` (PE header read). -/
  wrapWithCmd : Bool
  /-- Oracle: pid of a directly spawned child. -/
  spawnPid : Nat
deriving DecidableEq

def optNonEmpty : Option String → Bool
  | some s => isNonEmptyString s
  | none => false

/-- `readBasicConfiguration` (lines 583-608). -/
def readBasicConfiguration (cfg : LaunchConfig) (st : SessionState) : Bool × SessionState :=
  let workingDirectory :=
    if isNonEmptyString cfg.workingDirectory then jsTrim cfg.workingDirectory else ""
  if workingDirectory = "" then (false, st)
  else if !cfg.workingDirectoryIsDirectory then (false, st)
  else
    let sourceBasePath :=
      match cfg.sourceBasePath with
      | some s => if isNonEmptyString s then s else workingDirectory
      | none => workingDirectory
    let listenHost := if cfg.listenPublicly then "0.0.0.0" else "127.0.0.1"
    let listenPort :=
      match cfg.listenPortParsed with
      | some p => if 0 < p then p.toNat else 56789
      | none => 56789
    (true, {st with workingDirectory := workingDirectory, sourceBasePath := sourceBasePath,
                    listenHost := listenHost, listenPort := listenPort})

def splitCommandLineStr (s : String) : List String :=
  (splitCommandLine s.data).map fun l => String.mk l

/-- `launchTargetProcess` (lines 642-732).  Returns the source's boolean plus
state and effects. -/
def launchTargetProcess (cfg : LaunchConfig) (respId : Nat) (st : SessionState) :
    Bool × SessionState × List Eff :=
  let runtimeExecutable :=
    if isNonEmptyString cfg.executable then jsTrim cfg.executable else ""
  if runtimeExecutable = "" then
    (false, st, [Eff.response respId false (some "Property 'executable' is empty.")])
  else
    match cfg.fsResolvedExecutable with
    | none =>
      (false, st, [Eff.response respId false
        (some ("Runtime executable '" ++ runtimeExecutable ++ "' does not exist."))])
    | some fullExe =>
      let st := {st with launchedExecutableFullPath := some fullExe}
      let argList :=
        match cfg.arguments with
        | .strs ls => ls
        | .str s => if isNonEmptyString s then splitCommandLineStr s else []
        | .absent => []
      let spawnDirect : Bool × SessionState × List Eff :=
        (true, {st with launchedChild := some cfg.spawnPid},
         [Eff.spawnChild fullExe argList])
      match cfg.console with
      | none => spawnDirect
      | some c =>
        if isNonEmptyString c && (c = "integratedTerminal" || c = "externalTerminal") then
          if !st.clientSupportsRunInTerminalRequest then
            (false, st, [Eff.response respId false
              (some ("'console' was set to '" ++ c
                ++ "', but the client does not support the 'runInTerminal' request."))])
          else
            let kind := if c = "integratedTerminal" then TermKind.integrated else TermKind.external
            let st := {st with launchedTerminalKind := some kind}
            let terminalArgs :=
              if kind = TermKind.integrated && cfg.wrapWithCmd then
                "cmd.exe" :: "/c" :: fullExe :: argList
              else fullExe :: argList
            (true, st, [Eff.runInTerminal kind terminalArgs])
        else spawnDirect

/-- The `runInTerminalRequest` confirmation callback (lines 696-708).
`hasBody` models `runResponse.body` being present.  Note: this continuation
captures no session token and performs no staleness check. -/
def runInTerminalCallback (success hasBody : Bool)
    (processId shellProcessId : Option Nat) (message : Option String)
    (st : SessionState) : SessionState × List Eff :=
  if success && hasBody then
    ({st with launchedProcessId := processId, launchedShellProcessId := shellProcessId}, [])
  else
    (st, [Eff.evOutput "stderr"
      ("[sis] runInTerminal failed: "
        ++ (match message with | some m => m | none => "unknown error") ++ "\n")])

/-- The `[sis] waiting for debuggee ...` console notice (lines 568-573). -/
def waitingNotice (st : SessionState) : Eff :=
  .evOutput "console"
    ("[sis] waiting for debuggee at " ++ st.listenHost ++ ":" ++ toString st.listenPort
      ++ "...\n")

/-- The synchronous part of `startDebuggingSession` up to
`await this.openListener` (lines 522-541 plus the synchronous body of the
`openListener` promise executor, which stores the server in `this.listener`
before the bind result arrives).  Returns the state, effects, and the
captured `startToken` (`none` when the configuration was rejected). -/
def startDebuggingSessionPhase1 (kind : StartKind) (cfg : LaunchConfig) (respId : Nat)
    (st : SessionState) : SessionState × List Eff × Option Nat :=
  let st0 := {st with sessionToken := st.sessionToken + 1, stopping := false,
                      activeKind := some kind}
  let startToken := st0.sessionToken
  let k := killLaunchedProcesses st0
  let c1 := closeListener k.1
  let c2 := closeDebuggee c1.1
  let rc := readBasicConfiguration cfg c2.1
  match rc.1 with
  | false =>
    (rc.2, k.2 ++ c1.2 ++ c2.2 ++ [Eff.response respId false (some "Invalid configuration")],
     none)
  | true =>
    ({rc.2 with listener := true}, k.2 ++ c1.2 ++ c2.2, some startToken)

/-- The `error` handler inside `openListener` (lines 620-628), which runs
before the awaited promise resolves with `undefined`. -/
def openListenerOnError (respId : Nat) (reason : String) (st : SessionState) :
    SessionState × List Eff :=
  ({st with listener := false},
   [Eff.response respId false
     (some ("Failed to bind TCP listener at " ++ st.listenHost ++ ":"
        ++ toString st.listenPort ++ " (" ++ reason ++ ")."))])

/-- The continuation of `startDebuggingSession` after
`await this.openListener` (lines 542-573).  `bindOk` is whether the promise
resolved with a server (`false` = the error path already handled by
`openListenerOnError`). -/
def startDebuggingSessionAfterBind (startToken : Nat) (kind : StartKind) (cfg : LaunchConfig)
    (respId : Nat) (bindOk : Bool) (st : SessionState) : SessionState × List Eff :=
  if startToken ≠ st.sessionToken then
    (st, if bindOk then [Eff.listenerClose] else [])
  else if !bindOk then (st, [])
  else
    let st := {st with pendingStartResponse := some respId, pendingStartRequest := some respId}
    match kind with
    | .attach => (st, [waitingNotice st])
    | .launch =>
      let r := launchTargetProcess cfg respId st
      if startToken ≠ r.2.1.sessionToken then (r.2.1, r.2.2)
      else
        match r.1 with
        | false =>
          let c := closeListener r.2.1
          (c.1, r.2.2 ++ c.2)
        | true => (r.2.1, r.2.2 ++ [waitingNotice r.2.1])

/-! ### Stop-sequence properties -/

/-- Shared helper: whatever else a stop does, its trace begins with the
success acknowledgement of the still-pending start request, followed by the
acknowledgement of the stop request itself. -/
theorem stopDebuggingSession_acks_first (plat : Platform) (respId p : Nat) (st : SessionState)
    (h : st.pendingStartResponse = some p) :
    ((stopDebuggingSession plat respId st).2).take 2
      = [Eff.response p true none, Eff.response respId true none] := by
  simp only [stopDebuggingSession, h]
  split
  · simp
  · split <;> simp

/-- C4: a disconnect/terminate arriving while a launch/attach is still
pending answers the pending start request with `success = true` and no
message (then acknowledges the stop request), before any teardown effect. -/
theorem stop_before_connect_success (plat : Platform) (respId p : Nat) (st : SessionState)
    (h : st.pendingStartResponse = some p) :
    ((stopDebuggingSession plat respId st).2).take 2
      = [Eff.response p true none, Eff.response respId true none] :=
  stopDebuggingSession_acks_first plat respId p st h

theorem stop_before_connect_success_witness :
    ({ initialSessionState with pendingStartResponse := some 3 }
        : SessionState).pendingStartResponse = some 3
    ∧ ((stopDebuggingSession Platform.win32 7
          { initialSessionState with pendingStartResponse := some 3 }).2).take 2
      = [Eff.response 3 true none, Eff.response 7 true none] :=
  ⟨rfl, stop_before_connect_success Platform.win32 7 3
    { initialSessionState with pendingStartResponse := some 3 } rfl⟩

/-- C5: once `stopping` is set, a second disconnect/terminate only
re-acknowledges the IDE (resolving a pending start response if there is one):
its state change is limited to clearing the pending-response fields, the
token is untouched, and no terminated event, schedule, kill, listener close
or connection close occurs. -/
theorem stop_idempotent (plat : Platform) (respId : Nat) (st : SessionState)
    (h : st.stopping = true) :
    (stopDebuggingSession plat respId st).1
        = (match st.pendingStartResponse with
           | some _ => {st with pendingStartResponse := none, pendingStartRequest := none}
           | none => st)
    ∧ (stopDebuggingSession plat respId st).2
        = (match st.pendingStartResponse with
           | some p => [Eff.response p true none]
           | none => []) ++ [Eff.response respId true none]
    ∧ (stopDebuggingSession plat respId st).1.sessionToken = st.sessionToken
    ∧ (stopDebuggingSession plat respId st).1.stopping = true
    ∧ Eff.evTerminated ∉ (stopDebuggingSession plat respId st).2
    ∧ (∀ t, Eff.scheduleGraceTimer t ∉ (stopDebuggingSession plat respId st).2)
    ∧ Eff.scheduleImmediateTeardown ∉ (stopDebuggingSession plat respId st).2
    ∧ Eff.killChildHandle ∉ (stopDebuggingSession plat respId st).2
    ∧ (∀ q, Eff.killTreeByPid q ∉ (stopDebuggingSession plat respId st).2)
    ∧ Eff.listenerClose ∉ (stopDebuggingSession plat respId st).2
    ∧ Eff.destroyDebuggeeSocket ∉ (stopDebuggingSession plat respId st).2 := by
  cases hp : st.pendingStartResponse <;>
    simp [stopDebuggingSession, hp, h]

theorem stop_idempotent_witness :
    ({ initialSessionState with stopping := true } : SessionState).stopping = true
    ∧ (stopDebuggingSession Platform.win32 9
        { initialSessionState with stopping := true }).1
      = { initialSessionState with stopping := true }
    ∧ (stopDebuggingSession Platform.win32 9
        { initialSessionState with stopping := true }).2 = [Eff.response 9 true none] := by
  refine ⟨rfl, ?_, ?_⟩
  · exact (stop_idempotent Platform.win32 9 { initialSessionState with stopping := true } rfl).1
  · exact (stop_idempotent Platform.win32 9 { initialSessionState with stopping := true } rfl).2.1

/-! ### Connection-acceptance properties -/

/-- C6: at most one debuggee connection.  A socket arriving while a
connection exists is destroyed and the state is untouched; the first accepted
socket has the listener closed before any response or event reaches the IDE
(the trace is exactly: Nagle off, listener close, framed welcome, then the
pending-response part). -/
theorem single_debuggee_connection (plat : Platform) (st : SessionState) :
    (st.debuggee = true → onDebuggeeSocket plat st = (st, [Eff.destroyIncomingSocket]))
    ∧ (st.debuggee = false → st.listener = true →
        (onDebuggeeSocket plat st).2
          = [Eff.setNoDelay, Eff.listenerClose]
            ++ frameWrites (jsonStringify (welcomeMessage st.sourceBasePath (pathSep plat)))
            ++ (match st.pendingStartResponse with
                | some p => [Eff.response p true none, Eff.evInitialized]
                | none => [])) := by
  constructor
  · intro hd
    simp [onDebuggeeSocket, hd]
  · intro hd hl
    cases hp : st.pendingStartResponse <;>
      simp [onDebuggeeSocket, closeListener, hd, hl, hp]

theorem single_debuggee_connection_witness :
    ({ initialSessionState with debuggee := true } : SessionState).debuggee = true
    ∧ onDebuggeeSocket Platform.posix { initialSessionState with debuggee := true }
      = ({ initialSessionState with debuggee := true }, [Eff.destroyIncomingSocket]) :=
  ⟨rfl, (single_debuggee_connection Platform.posix
    { initialSessionState with debuggee := true }).1 rfl⟩

/-- C7: the first bytes sent on a fresh debuggee connection are the framed
`welcome` message — serialized with the fields `command`, `sourceBasePath`
and `directorySeperator` (exactly that spelling), in that order — and only
afterwards is the pending start request answered successfully and the
initialized event emitted, in that order. -/
theorem welcome_greeting_first (plat : Platform) (st : SessionState) (p : Nat)
    (hd : st.debuggee = false) (hp : st.pendingStartResponse = some p) :
    (onDebuggeeSocket plat st).2
      = [Eff.setNoDelay] ++ (if st.listener then [Eff.listenerClose] else [])
        ++ [Eff.wireWrite ("#"
              ++ toString (jsonStringify
                    (welcomeMessage st.sourceBasePath (pathSep plat))).utf8ByteSize ++ "\n"),
            Eff.wireWrite (jsonStringify (welcomeMessage st.sourceBasePath (pathSep plat))),
            Eff.response p true none, Eff.evInitialized]
    ∧ jsonStringify (welcomeMessage st.sourceBasePath (pathSep plat))
      = "\x7b" ++ jsonQuote "command" ++ ":" ++ jsonQuote "welcome" ++ ","
        ++ jsonQuote "sourceBasePath" ++ ":" ++ jsonQuote st.sourceBasePath ++ ","
        ++ jsonQuote "directorySeperator" ++ ":" ++ jsonQuote (pathSep plat) ++ "\x7d" := by
  constructor
  · cases hl : st.listener <;>
      simp [onDebuggeeSocket, closeListener, frameWrites, hd, hp, hl]
  · simp [jsonStringify, stringifyFields, welcomeMessage, String.append_assoc]

def welcomeWitnessState : SessionState :=
  { initialSessionState with listener := true, pendingStartResponse := some 4, sourceBasePath := "C:\\proj" }

theorem welcome_greeting_first_witness :
    welcomeWitnessState.debuggee = false
    ∧ welcomeWitnessState.pendingStartResponse = some 4
    ∧ (onDebuggeeSocket Platform.win32 welcomeWitnessState).2
      = [Eff.setNoDelay, Eff.listenerClose,
         Eff.wireWrite "#75\n",
         Eff.wireWrite
           "\x7b\"command\":\"welcome\",\"sourceBasePath\":\"C:\\\\proj\",\"directorySeperator\":\"\\\\\"\x7d",
         Eff.response 4 true none, Eff.evInitialized] := by
  refine ⟨rfl, rfl, ?_⟩
  have h := (welcome_greeting_first Platform.win32 welcomeWitnessState 4 rfl rfl).1
  rw [h]
  rfl

/-! ### Session-token staleness (start/stop continuations) -/

/-- C3 (amended): the continuation after the listener bind (which also hosts
the post-launch token check) and the stop grace-period timer discard their
work when their captured token is stale, leaving the state untouched; the
`runInTerminal` confirmation callback, however, performs no token comparison
and records the reported process ids unconditionally. -/
theorem session_token_staleness_guard :
    (∀ (startToken : Nat) (kind : StartKind) (cfg : LaunchConfig) (respId : Nat)
        (bindOk : Bool) (st : SessionState), startToken ≠ st.sessionToken →
      (startDebuggingSessionAfterBind startToken kind cfg respId bindOk st).1 = st
      ∧ (startDebuggingSessionAfterBind startToken kind cfg respId bindOk st).2
          = (if bindOk then [Eff.listenerClose] else []))
    ∧ (∀ (plat : Platform) (stopToken : Nat) (st : SessionState),
        stopToken ≠ st.sessionToken → graceTimerFired plat stopToken st = (st, []))
    ∧ (∀ (processId shellProcessId : Option Nat) (msg : Option String) (st : SessionState),
        runInTerminalCallback true true processId shellProcessId msg st
          = ({st with launchedProcessId := processId,
                      launchedShellProcessId := shellProcessId}, [])) := by
  refine ⟨?_, ?_, ?_⟩
  · intro startToken kind cfg respId bindOk st hne
    simp [startDebuggingSessionAfterBind, hne]
  · intro plat stopToken st hne
    simp [graceTimerFired, hne]
  · intro processId shellProcessId msg st
    simp [runInTerminalCallback]

theorem session_token_staleness_guard_witness :
    (5 ≠ initialSessionState.sessionToken
      ∧ (startDebuggingSessionAfterBind 5 StartKind.attach
          { workingDirectory := "", workingDirectoryIsDirectory := false,
            sourceBasePath := none, listenPublicly := false, listenPortParsed := none,
            executable := "", fsResolvedExecutable := none, arguments := ArgSpec.absent,
            env := none, console := none, wrapWithCmd := false, spawnPid := 0 }
          1 true initialSessionState).1 = initialSessionState)
    ∧ (7 ≠ initialSessionState.sessionToken
      ∧ graceTimerFired Platform.win32 7 initialSessionState = (initialSessionState, [])) := by
  refine ⟨⟨by decide, ?_⟩, ⟨by decide, ?_⟩⟩
  · exact (session_token_staleness_guard.1 5 StartKind.attach _ 1 true initialSessionState
      (by decide)).1
  · exact session_token_staleness_guard.2.1 Platform.win32 7 initialSessionState (by decide)

/-- A concrete run refuting C3 as stated: a launch in `integratedTerminal`
mode issues `runInTerminal` while the session token is 1; a stop then bumps
the token to 2; when the confirmation callback finally runs it still stores
the process ids, mutating session state despite the stale token. -/
def tokenGuardConfig : LaunchConfig where
  workingDirectory := "C:\\proj"
  workingDirectoryIsDirectory := true
  sourceBasePath := none
  listenPublicly := false
  listenPortParsed := some 56789
  executable := "game.exe"
  fsResolvedExecutable := some "C:\\proj\\game.exe"
  arguments := ArgSpec.absent
  env := none
  console := some "integratedTerminal"
  wrapWithCmd := false
  spawnPid := 99

def tokenGuardStart : SessionState × List Eff × Option Nat :=
  startDebuggingSessionPhase1 StartKind.launch tokenGuardConfig 1
    { initialSessionState with clientSupportsRunInTerminalRequest := true }

def tokenGuardAfterBind : SessionState × List Eff :=
  startDebuggingSessionAfterBind 1 StartKind.launch tokenGuardConfig 1 true tokenGuardStart.1

def tokenGuardStopped : SessionState × List Eff :=
  stopDebuggingSession Platform.win32 2 tokenGuardAfterBind.1

def tokenGuardCallback : SessionState × List Eff :=
  runInTerminalCallback true true (some 42) (some 43) none tokenGuardStopped.1

theorem stale_runInTerminal_callback_mutates :
    tokenGuardStart.2.2 = some 1
    ∧ Eff.runInTerminal TermKind.integrated ["C:\\proj\\game.exe"] ∈ tokenGuardAfterBind.2
    ∧ tokenGuardStopped.1.sessionToken = 2
    ∧ tokenGuardStopped.1.launchedProcessId = none
    ∧ tokenGuardCallback.1.launchedProcessId = some 42
    ∧ tokenGuardCallback.1 ≠ tokenGuardStopped.1 := by
  refine ⟨by decide, by decide, by decide, by decide, by decide, by decide⟩

/-! ### C10: launch failure leaves the pending start response in place -/

theorem launchTargetProcess_preserves (cfg : LaunchConfig) (respId : Nat) (st : SessionState) :
    (launchTargetProcess cfg respId st).2.1.pendingStartResponse = st.pendingStartResponse
    ∧ (launchTargetProcess cfg respId st).2.1.sessionToken = st.sessionToken := by
  simp only [launchTargetProcess]
  repeat' split
  all_goals exact ⟨rfl, rfl⟩

theorem launchTargetProcess_false_effs (cfg : LaunchConfig) (respId : Nat) (st : SessionState) :
    (launchTargetProcess cfg respId st).1 = false →
    ∃ m, (launchTargetProcess cfg respId st).2.2 = [Eff.response respId false (some m)] := by
  simp only [launchTargetProcess]
  repeat' split
  all_goals
    first
    | exact fun _ => ⟨_, rfl⟩
    | exact fun h => absurd h (by simp)

theorem closeListener_preserves (st : SessionState) :
    (closeListener st).1.pendingStartResponse = st.pendingStartResponse := by
  cases hl : st.listener <;> simp [closeListener, hl]

/-- C10: after a successful bind during a launch, `pendingStartResponse` is
set before `launchTargetProcess` runs; when the launch fails, the error
response goes out but the pending response is not cleared, so a later
disconnect/terminate answers the same start request a second time — now
marked as a success. -/
theorem pending_response_survives_launch_failure (plat : Platform) (cfg : LaunchConfig)
    (respId respId2 : Nat) (st : SessionState)
    (hfail : (launchTargetProcess cfg respId
        {st with pendingStartResponse := some respId,
                 pendingStartRequest := some respId}).1 = false) :
    (startDebuggingSessionAfterBind st.sessionToken StartKind.launch cfg respId true st).1.pendingStartResponse
      = some respId
    ∧ (∃ m, Eff.response respId false (some m)
        ∈ (startDebuggingSessionAfterBind st.sessionToken StartKind.launch cfg respId true st).2)
    ∧ ((stopDebuggingSession plat respId2
          (startDebuggingSessionAfterBind st.sessionToken StartKind.launch cfg respId true st).1).2).take 2
      = [Eff.response respId true none, Eff.response respId2 true none] := by
  rcases hL : launchTargetProcess cfg respId
      {st with pendingStartResponse := some respId, pendingStartRequest := some respId}
    with ⟨ok, st2, effs⟩
  have hok : ok = false := by rw [hL] at hfail; exact hfail
  subst hok
  have hpres := launchTargetProcess_preserves cfg respId
      {st with pendingStartResponse := some respId, pendingStartRequest := some respId}
  rw [hL] at hpres
  obtain ⟨hpend, htok⟩ := hpres
  obtain ⟨m, hm⟩ := launchTargetProcess_false_effs cfg respId
      {st with pendingStartResponse := some respId, pendingStartRequest := some respId}
      (by rw [hL])
  rw [hL] at hm
  have hrun : startDebuggingSessionAfterBind st.sessionToken StartKind.launch cfg respId true st
      = ((closeListener st2).1, effs ++ (closeListener st2).2) := by
    unfold startDebuggingSessionAfterBind
    rw [if_neg (show ¬(st.sessionToken ≠ st.sessionToken) from fun h => h rfl)]
    rw [if_neg (show ¬((!true) = true) from by decide)]
    simp only [hL]
    rw [if_neg (show ¬(st.sessionToken ≠ st2.sessionToken) from by rw [htok]; exact fun h => h rfl)]
  have hresultPending :
      (startDebuggingSessionAfterBind st.sessionToken StartKind.launch cfg respId true st).1.pendingStartResponse
        = some respId := by
    rw [hrun]
    simpa [closeListener_preserves] using hpend
  refine ⟨hresultPending, ⟨m, ?_⟩, ?_⟩
  · rw [hrun]
    have hm' : effs = [Eff.response respId false (some m)] := hm
    simp [hm']
  · exact stopDebuggingSession_acks_first plat respId2 respId _ hresultPending

/-- Witness for C10: a launch whose `executable` is the empty string.  The
bind continuation sends the error response but leaves the pending response
set, and a later disconnect answers request 1 again, successfully. -/
def emptyExecutableConfig : LaunchConfig where
  workingDirectory := "C:\\proj"
  workingDirectoryIsDirectory := true
  sourceBasePath := none
  listenPublicly := false
  listenPortParsed := some 56789
  executable := ""
  fsResolvedExecutable := none
  arguments := ArgSpec.absent
  env := none
  console := none
  wrapWithCmd := false
  spawnPid := 99

def pendingSetInitialState : SessionState :=
  { initialSessionState with pendingStartResponse := some 1, pendingStartRequest := some 1 }

theorem pending_response_survives_launch_failure_witness :
    (launchTargetProcess emptyExecutableConfig 1 pendingSetInitialState).1 = false
    ∧ (startDebuggingSessionAfterBind 0 StartKind.launch emptyExecutableConfig 1 true
        initialSessionState).1.pendingStartResponse = some 1
    ∧ ((stopDebuggingSession Platform.win32 2
          (startDebuggingSessionAfterBind 0 StartKind.launch emptyExecutableConfig 1 true
            initialSessionState).1).2).take 2
      = [Eff.response 1 true none, Eff.response 2 true none] := by
  have h := pending_response_survives_launch_failure Platform.win32 emptyExecutableConfig
    1 2 initialSessionState (by decide)
  exact ⟨by decide, h.1, h.2.2⟩

end LuaDebugAdapter
